import Mathlib

/-
Verification of the spy-craft response-normalization logic.

The program is a single-page Svelte app (src/src/App.svelte, plus an earlier
variant of the same component preserved as src/unnamed/part_000).  All the
interesting behaviour lives in `submitResearch`: it validates the form,
posts to a webhook, and normalizes an arbitrary JSON response body into a
list of research entries plus an optional debrief.

We embed the JSON data model, a bounded JSON parser standing in for
`JSON.parse`, and the two variants of the normalizer:

  * namespace `App` — the current src/src/App.svelte,
  * namespace `V0`  — the earlier variant src/unnamed/part_000.

Machine-level caveats of the embedding (each noted where it matters):
`Date.now()` is dropped from `makeId` (ids keep only the counter and the
suffix — no claim mentions ids); `Object.entries` is modelled as insertion
order (JS orders integer-like keys first, but no category key in any claim
or concrete input below is integer-like); whitespace classes use Lean's
ASCII `Char.isWhitespace`, matching JS for the ASCII inputs considered.
-/

/-- JSON values.  Number tokens keep their raw source text: no claim ever
inspects a numeric value, so we avoid committing to float semantics. -/
inductive Json where
  | null : Json
  | bool (b : Bool) : Json
  | num (raw : String) : Json
  | str (s : String) : Json
  | arr (elems : List Json) : Json
  | obj (fields : List (String × Json)) : Json

/-- JS `s.trim()` on ASCII whitespace, written list-structurally so that
the kernel can evaluate it (core `String.trim` does not reduce). -/
def jsTrim (s : String) : String :=
  String.mk
    (((s.data.dropWhile Char.isWhitespace).reverse.dropWhile
      Char.isWhitespace).reverse)

/-- JS `s.toLowerCase()`, kernel-computable. -/
def jsToLower (s : String) : String :=
  String.mk (s.data.map Char.toLower)

/-- JS `s.startsWith(p)`, kernel-computable. -/
def jsStartsWith (s p : String) : Bool :=
  p.data.isPrefixOf s.data

/-- JS `s.split('\n')`, kernel-computable. -/
def splitNl : List Char → List (List Char)
  | [] => [[]]
  | c :: rest =>
    if c = '\n' then [] :: splitNl rest
    else
      match splitNl rest with
      | [] => [[c]]
      | l :: ls => (c :: l) :: ls

def jsSplitNl (s : String) : List String :=
  (splitNl s.data).map String.mk

/-- JSON whitespace (space, tab, LF, CR), as accepted by `JSON.parse`. -/
def isJsonWs (c : Char) : Bool :=
  c = ' ' || c = '\t' || c = '\n' || c = '\r'

def skipWs : List Char → List Char
  | [] => []
  | c :: rest => if isJsonWs c then skipWs rest else c :: rest

def hexDigitVal (c : Char) : Option Nat :=
  let n := c.toNat
  if 48 ≤ n ∧ n ≤ 57 then some (n - 48)
  else if 97 ≤ n ∧ n ≤ 102 then some (n - 87)
  else if 65 ≤ n ∧ n ≤ 70 then some (n - 55)
  else none

/-- Body of a JSON string literal (after the opening quote).  Returns the
decoded characters and the input remaining after the closing quote. -/
def parseStrBody : List Char → Option (List Char × List Char)
  | [] => none
  | '"' :: rest => some ([], rest)
  | '\\' :: rest =>
    match rest with
    | '"' :: r => (parseStrBody r).map (fun p => ('"' :: p.1, p.2))
    | '\\' :: r => (parseStrBody r).map (fun p => ('\\' :: p.1, p.2))
    | '/' :: r => (parseStrBody r).map (fun p => ('/' :: p.1, p.2))
    | 'b' :: r => (parseStrBody r).map (fun p => (Char.ofNat 8 :: p.1, p.2))
    | 'f' :: r => (parseStrBody r).map (fun p => (Char.ofNat 12 :: p.1, p.2))
    | 'n' :: r => (parseStrBody r).map (fun p => ('\n' :: p.1, p.2))
    | 'r' :: r => (parseStrBody r).map (fun p => ('\r' :: p.1, p.2))
    | 't' :: r => (parseStrBody r).map (fun p => ('\t' :: p.1, p.2))
    | 'u' :: a :: b :: c :: d :: r =>
      match hexDigitVal a, hexDigitVal b, hexDigitVal c, hexDigitVal d with
      | some ha, some hb, some hc, some hd =>
        (parseStrBody r).map
          (fun p => (Char.ofNat (ha * 4096 + hb * 256 + hc * 16 + hd) :: p.1, p.2))
      | _, _, _, _ => none
    | _ => none
  | c :: rest =>
    if c.toNat < 32 then none
    else (parseStrBody rest).map (fun p => (c :: p.1, p.2))

def takeDigits : List Char → List Char × List Char
  | [] => ([], [])
  | c :: rest =>
    if c.isDigit then
      let p := takeDigits rest
      (c :: p.1, p.2)
    else ([], c :: rest)

/-- Optional fraction and exponent of a JSON number. -/
def parseNumTail (cs : List Char) : Option (List Char × List Char) := do
  let (fr, cs2) ← (match cs with
    | '.' :: r =>
      (match takeDigits r with
       | ([], _) => none
       | (ds, r2) => some ('.' :: ds, r2))
    | _ => some (([] : List Char), cs))
  let (ex, cs3) ← (match cs2 with
    | 'e' :: r =>
      (match r with
       | '+' :: r2 =>
         (match takeDigits r2 with
          | ([], _) => none
          | (ds, r3) => some ('e' :: '+' :: ds, r3))
       | '-' :: r2 =>
         (match takeDigits r2 with
          | ([], _) => none
          | (ds, r3) => some ('e' :: '-' :: ds, r3))
       | _ =>
         (match takeDigits r with
          | ([], _) => none
          | (ds, r3) => some ('e' :: ds, r3)))
    | 'E' :: r =>
      (match r with
       | '+' :: r2 =>
         (match takeDigits r2 with
          | ([], _) => none
          | (ds, r3) => some ('E' :: '+' :: ds, r3))
       | '-' :: r2 =>
         (match takeDigits r2 with
          | ([], _) => none
          | (ds, r3) => some ('E' :: '-' :: ds, r3))
       | _ =>
         (match takeDigits r with
          | ([], _) => none
          | (ds, r3) => some ('E' :: ds, r3)))
    | _ => some (([] : List Char), cs2))
  some (fr ++ ex, cs3)

/-- A JSON number token: `-? (0 | [1-9][0-9]*) frac? exp?`, raw text kept. -/
def parseNumber (cs : List Char) : Option (List Char × List Char) :=
  let (sign, cs1) : List Char × List Char :=
    match cs with
    | '-' :: r => (['-'], r)
    | _ => ([], cs)
  match cs1 with
  | [] => none
  | c :: rest =>
    if c = '0' then
      (parseNumTail rest).map (fun p => (sign ++ '0' :: p.1, p.2))
    else if c.isDigit then
      let (ds, r) := takeDigits rest
      (parseNumTail r).map (fun p => (sign ++ c :: ds ++ p.1, p.2))
    else none

/-- `JSON.parse` keeps the first position of a duplicated object key but the
last value. -/
def insertField (fs : List (String × Json)) (k : String) (v : Json) :
    List (String × Json) :=
  match fs with
  | [] => [(k, v)]
  | (k2, v2) :: rest =>
    if k2 = k then (k2, v) :: rest else (k2, v2) :: insertField rest k v

mutual

/-- Fueled recursive-descent JSON value parser. -/
def parseVal : Nat → List Char → Option (Json × List Char)
  | 0, _ => none
  | Nat.succ fuel, cs =>
    match skipWs cs with
    | [] => none
    | c :: rest =>
      if c = 'n' then
        match rest with
        | 'u' :: 'l' :: 'l' :: r => some (Json.null, r)
        | _ => none
      else if c = 't' then
        match rest with
        | 'r' :: 'u' :: 'e' :: r => some (Json.bool true, r)
        | _ => none
      else if c = 'f' then
        match rest with
        | 'a' :: 'l' :: 's' :: 'e' :: r => some (Json.bool false, r)
        | _ => none
      else if c = '"' then
        (parseStrBody rest).map (fun p => (Json.str (String.mk p.1), p.2))
      else if c = '[' then
        match skipWs rest with
        | ']' :: r => some (Json.arr [], r)
        | cs2 => parseArrItems fuel cs2 []
      else if c = '{' then
        match skipWs rest with
        | '}' :: r => some (Json.obj [], r)
        | cs2 => parseObjItems fuel cs2 []
      else
        (parseNumber (c :: rest)).map (fun p => (Json.num (String.mk p.1), p.2))

def parseArrItems : Nat → List Char → List Json → Option (Json × List Char)
  | 0, _, _ => none
  | Nat.succ fuel, cs, acc =>
    match parseVal fuel cs with
    | none => none
    | some (v, r) =>
      match skipWs r with
      | ',' :: r2 => parseArrItems fuel r2 (acc ++ [v])
      | ']' :: r2 => some (Json.arr (acc ++ [v]), r2)
      | _ => none

def parseObjItems : Nat → List Char → List (String × Json) →
    Option (Json × List Char)
  | 0, _, _ => none
  | Nat.succ fuel, cs, acc =>
    match skipWs cs with
    | '"' :: rest =>
      match parseStrBody rest with
      | none => none
      | some (kcs, r) =>
        match skipWs r with
        | ':' :: r2 =>
          match parseVal fuel r2 with
          | none => none
          | some (v, r3) =>
            let acc2 := insertField acc (String.mk kcs) v
            match skipWs r3 with
            | ',' :: r4 => parseObjItems fuel r4 acc2
            | '}' :: r4 => some (Json.obj acc2, r4)
            | _ => none
        | _ => none
    | _ => none

end

/-- `JSON.parse`: parse one value and require only whitespace after it. -/
def parseJsonStr (s : String) : Option Json :=
  match parseVal (2 * s.length + 8) s.data with
  | some (v, r) => if (skipWs r).isEmpty then some v else none
  | none => none

/-- `safeParse` from both sources: try to parse a string, else return it. -/
def safeParse (v : Json) : Json :=
  match v with
  | Json.str s => (parseJsonStr s).getD (Json.str s)
  | _ => v

/-- The JS check `p === cur` where `cur` is a string: true exactly when `p`
is a string of the same value (`===` is value equality on strings; on any
other parse result the types differ). -/
def jsonIsStr (p : Json) (s : String) : Bool :=
  match p with
  | Json.str s2 => s2 == s
  | _ => false

/-- `peel` from both sources with its default `maxDepth = 2`, unrolled:
while the current value is a string, parse it; stop when parsing returns
the value unchanged or after two successful steps. -/
def peel (v : Json) : Json :=
  match v with
  | Json.str s =>
    let p := safeParse (Json.str s)
    if jsonIsStr p s then Json.str s
    else
      match p with
      | Json.str s2 =>
        let p2 := safeParse (Json.str s2)
        if jsonIsStr p2 s2 then Json.str s2 else p2
      | _ => p
  | _ => v

/-- JS property lookup on a parsed object (keys are unique after parsing). -/
def lookupField (fs : List (String × Json)) (k : String) : Option Json :=
  match fs with
  | [] => none
  | (k2, v) :: rest => if k2 = k then some v else lookupField rest k

/-- `typeof obj.k === 'string' ? obj.k : ''` -/
def getStr (fs : List (String × Json)) (k : String) : String :=
  match lookupField fs k with
  | some (Json.str s) => s
  | _ => ""

/-- `'k' in rec` -/
def hasKey (fs : List (String × Json)) (k : String) : Bool :=
  fs.any (fun p => p.1 = k)

/-- `Array.isArray(data) ? data : (data && typeof data === 'object' ? [data] : [])` -/
def toBaseList : Json → List Json
  | Json.arr xs => xs
  | Json.obj fs => [Json.obj fs]
  | _ => []

/-- `id` keeps the `__uid` counter and the suffix; the `Date.now()` part of
`makeId` is omitted from the model (no claim mentions entry ids). -/
def makeId (uid : Nat) (suffix : String) : String :=
  toString uid ++ "-" ++ suffix

structure ResearchEntry where
  id : String
  companyName : String
  category : String
  title : String
  summary : String
  url : String
  postedDate : Option String
deriving DecidableEq, Repr

/-- `(e.url || '').trim().toLowerCase()` — the dedup key. -/
def normUrlKey (e : ResearchEntry) : String :=
  jsToLower (jsTrim e.url)

/-- The `seen`-set dedup filter shared verbatim by both source variants:
blank keys are always kept; a non-blank key is kept only on first sight. -/
def dedupeAux (seen : List String) : List ResearchEntry → List ResearchEntry
  | [] => []
  | e :: rest =>
    let key := normUrlKey e
    if key = "" then e :: dedupeAux seen rest
    else if key ∈ seen then dedupeAux seen rest
    else e :: dedupeAux (key :: seen) rest

def dedupeByUrl (l : List ResearchEntry) : List ResearchEntry :=
  dedupeAux [] l

inductive Tab where
  | research : Tab
  | summaries : Tab
deriving DecidableEq, Repr

/-- What the environment did with the single outbound request. -/
inductive FetchOutcome where
  | networkError (message : String) : FetchOutcome
  | httpError (status : Nat) (statusText : String) (body : String) : FetchOutcome
  | success (body : String) : FetchOutcome

/-- `message.includes(pat)` for a non-empty pattern. -/
def containsAux (pat : List Char) : List Char → Bool
  | [] => pat.isPrefixOf []
  | c :: rest => pat.isPrefixOf (c :: rest) || containsAux pat rest

def containsText (s pat : String) : Bool :=
  containsAux pat.data s.data

/-- The catch-clause rewrite of the error message. -/
def corsRewrite (message : String) : String :=
  if containsText message "Failed to fetch" then
    "Failed to fetch (likely CORS). See note below."
  else message

namespace App

/-- `hasText` from App.svelte; `none` stands for a non-string value. -/
def hasText : Option String → Bool
  | some s => !(jsTrim s).isEmpty
  | none => false

/-- `s.replace(/^\s*\*\*\s*|\s*\*\*\s*$/g, '')`: one leading and one
trailing `**` marker (with surrounding whitespace) are removed. -/
def stripBoldStart (s : String) : String :=
  let ws := s.data.dropWhile Char.isWhitespace
  match ws with
  | '*' :: '*' :: rest => String.mk (rest.dropWhile Char.isWhitespace)
  | _ => s

def stripBoldEnd (s : String) : String :=
  let ws := s.data.reverse.dropWhile Char.isWhitespace
  match ws with
  | '*' :: '*' :: rest => String.mk ((rest.dropWhile Char.isWhitespace).reverse)
  | _ => s

def stripBold (s : String) : String :=
  stripBoldEnd (stripBoldStart s)

/-- `s.replace(/^\s*-\s*/, '')`: nothing is removed when no dash follows
the leading whitespace. -/
def stripDashMark (s : String) : String :=
  match s.data.dropWhile Char.isWhitespace with
  | '-' :: rest => String.mk (rest.dropWhile Char.isWhitespace)
  | _ => s

def normalizePoint (s : String) : String :=
  stripBold (jsTrim (stripDashMark s))

/-- `l.replace(/^•\s*/, '')` — note: no `\s*` before the bullet glyph. -/
def stripBulletGlyph (l : String) : String :=
  match l.data with
  | '•' :: rest => String.mk (rest.dropWhile Char.isWhitespace)
  | _ => l

def extractBulletsFromFullBody : Option String → List String
  | none => []
  | some fullBody =>
    if fullBody.isEmpty then []
    else
      (((jsSplitNl fullBody).filter
          (fun l => jsStartsWith (jsTrim l) "- " ||
            jsStartsWith (jsTrim l) "• ")).map
        (fun l => normalizePoint (stripBulletGlyph l))).filter
        (fun t => !t.isEmpty)

def extractParagraphFromFullBody : Option String → Option String
  | none => none
  | some fullBody =>
    if fullBody.isEmpty then none
    else
      let paras := ((jsSplitNl fullBody).map jsTrim).filter
        (fun l => !l.isEmpty && !(jsStartsWith l "#") &&
          !(jsStartsWith l "- ") && !(jsStartsWith l "• "))
      if paras.isEmpty then none else some (String.intercalate " " paras)

def deriveExecutiveSummary (existing : Option String) (bullets : List String)
    (fullBody : Option String) : Option String :=
  if hasText existing then some (jsTrim (existing.getD ""))
  else
    match extractParagraphFromFullBody fullBody with
    | some fromBody => some fromBody
    | none =>
      if bullets.length > 0 then some (String.intercalate " " (bullets.take 3))
      else none

structure Debrief where
  title : String
  executiveSummary : Option String
  fullBody : Option String
  bulletPoints : List String
  totals : Option Json
  bulletPointCount : Option String

/-- `pushIfValid` from App.svelte (the strict variant: a candidate without
a non-blank `summary` is dropped).  Returns the pushed entry, if any, and
the `__uid` counter after the call. -/
def pushIfValid (cn : String) (hint : Option String)
    (fs : List (String × Json)) (uid : Nat) : Option ResearchEntry × Nat :=
  let title := getStr fs "title"
  let summary := getStr fs "summary"
  let url := getStr fs "url"
  let category :=
    match lookupField fs "category" with
    | some (Json.str c) => c
    | _ => match hint with
      | some h => if h.isEmpty then "Research" else h
      | none => "Research"
  let postedDate := getStr fs "postedDate"
  if !hasText (some summary) then (none, uid)
  else
    (some {
      id := makeId (uid + 1) (if category.isEmpty then "item" else category),
      companyName := cn,
      category := if category.isEmpty then "Research" else category,
      title := if hasText (some title) then title else "Untitled",
      summary := summary,
      url := if hasText (some url) then url else "#",
      postedDate := if hasText (some postedDate) then some postedDate else none },
     uid + 1)

def processCandidate (cn : String) (hint : Option String)
    (fs : List (String × Json)) (acc : List ResearchEntry × Nat) :
    List ResearchEntry × Nat :=
  match pushIfValid cn hint fs acc.2 with
  | (some e, u) => (acc.1 ++ [e], u)
  | (none, u) => (acc.1, u)

/-- One `(categoryKey, rawVal)` pair of the grouped shape. -/
def processGroupVal (cn : String) (category : String) (rawVal : Json)
    (acc : List ResearchEntry × Nat) : List ResearchEntry × Nat :=
  match peel rawVal with
  | Json.arr children =>
    children.foldl
      (fun acc2 child =>
        match peel child with
        | Json.obj fs => processCandidate cn (some category) fs acc2
        | _ => acc2)
      acc
  | Json.obj fs => processCandidate cn (some category) fs acc
  | _ => acc

/-- One element of the remaining list (the `remainingList.forEach` body). -/
def processItem (cn : String) (acc : List ResearchEntry × Nat) (item : Json) :
    List ResearchEntry × Nat :=
  match item with
  | Json.obj fs =>
    if hasKey fs "title" || hasKey fs "summary" || hasKey fs "url" ||
        hasKey fs "category" || hasKey fs "postedDate" then
      processCandidate cn none fs acc
    else
      fs.foldl (fun acc2 kv => processGroupVal cn kv.1 kv.2 acc2) acc
  | _ => acc

/-- Debrief extraction from the peeled first list element (App.svelte):
any plain object is accepted — there is no marker check in this variant. -/
def extractDebrief (first : Json) : Option Debrief :=
  match peel first with
  | Json.obj fs =>
    let title :=
      match lookupField fs "title" with
      | some (Json.str t) => t
      | _ => "Content Debrief"
    let fullBody :=
      match lookupField fs "fullBody" with
      | some (Json.str b) => some b
      | _ => none
    let execV2 :=
      match lookupField fs "executive_summary" with
      | some (Json.str e) => some e
      | _ => none
    let bpA :=
      match lookupField fs "bulletPoints" with
      | some (Json.arr xs) => some xs
      | _ => none
    let bpB :=
      match lookupField fs "supporting_points" with
      | some (Json.arr xs) => some xs
      | _ => none
    let bullets :=
      match bpA with
      | some xs =>
        (xs.filterMap (fun j => match j with
          | Json.str s => some s
          | _ => none)).map normalizePoint
      | none =>
        match bpB with
        | some xs =>
          (xs.filterMap (fun j => match j with
            | Json.str s => some s
            | _ => none)).map normalizePoint
        | none => extractBulletsFromFullBody fullBody
    some {
      title := title,
      executiveSummary := deriveExecutiveSummary execV2 bullets fullBody,
      fullBody := fullBody,
      bulletPoints := bullets,
      totals :=
        match lookupField fs "totals" with
        | some (Json.obj tfs) => some (Json.obj tfs)
        | some (Json.arr txs) => some (Json.arr txs)
        | _ => none,
      bulletPointCount :=
        match lookupField fs "bulletPointCount" with
        | some (Json.num n) => some n
        | _ => none }
  | _ => none

structure AppState where
  activeTab : Tab
  companyName : String
  companyWebsite : String
  summaries : List ResearchEntry
  debrief : Option Debrief
  lastCompanyName : String
  isLoading : Bool
  error : String
  uid : Nat

def initialState : AppState :=
  { activeTab := Tab.research, companyName := "", companyWebsite := "",
    summaries := [], debrief := none, lastCompanyName := "",
    isLoading := false, error := "", uid := 0 }

/-- Two-way `bind:value` on the form inputs. -/
def setForm (st : AppState) (name website : String) : AppState :=
  { st with companyName := name, companyWebsite := website }

def validForm (st : AppState) : Bool :=
  !(jsTrim st.companyName).isEmpty && !(jsTrim st.companyWebsite).isEmpty

/-- The payload handed to `fetch`, when the validation gate passes. -/
def requestSent (st : AppState) : Option (String × String) :=
  if validForm st then some (st.companyName, st.companyWebsite) else none

def placeholderEntry (cn : String) (uid : Nat) : ResearchEntry :=
  { id := makeId uid "no-results", companyName := cn, category := "Research",
    title := "No articles found", summary := "", url := "#",
    postedDate := none }

/-- The live debrief after the extraction step of one successful batch:
assigned only when the peeled first element is a plain object, otherwise
the previous value persists. -/
def debriefAfter (st : AppState) (body : String) : Option Debrief :=
  match toBaseList ((parseJsonStr body).getD Json.null) with
  | [] => st.debrief
  | first :: _ =>
    match extractDebrief first with
    | some d => some d
    | none => st.debrief

/-- The batch's new entries (before dedup) and the counter after them. -/
def newEntriesOf (cn : String) (uid : Nat) (body : String) :
    List ResearchEntry × Nat :=
  let baseList := toBaseList ((parseJsonStr body).getD Json.null)
  let remainingList :=
    match baseList with
    | [] => ([] : List Json)
    | first :: rest =>
      match extractDebrief first with
      | some _ => rest
      | none => first :: rest
  remainingList.foldl (processItem cn) (([] : List ResearchEntry), uid)

/-- `submitResearch` from App.svelte as a state transition; the fetch
outcome is the environment's input.  On a validation failure nothing but
the error banner changes and no request is sent. -/
def submitResearch (st : AppState) (outcome : FetchOutcome) : AppState :=
  if !validForm st then
    { st with error := "Company name and website are required" }
  else
    let cn := st.companyName
    match outcome with
    | FetchOutcome.networkError msg =>
      { st with
        lastCompanyName := cn
        isLoading := false
        error := corsRewrite msg }
    | FetchOutcome.httpError status statusText body =>
      let msg := "HTTP " ++ toString status ++ " " ++ statusText ++
        (if body.isEmpty then "" else " - " ++ body)
      { st with
        lastCompanyName := cn
        isLoading := false
        error := corsRewrite msg }
    | FetchOutcome.success body =>
      let newDebrief := debriefAfter st body
      let p := newEntriesOf cn st.uid body
      let deduped := dedupeByUrl p.1
      if deduped.isEmpty && newDebrief.isNone then
        { st with
          summaries := placeholderEntry cn (p.2 + 1) :: st.summaries
          debrief := newDebrief
          uid := p.2 + 1
          companyName := ""
          companyWebsite := ""
          activeTab := Tab.summaries
          lastCompanyName := cn
          isLoading := false
          error := "" }
      else
        { st with
          summaries := deduped ++ st.summaries
          debrief := newDebrief
          uid := p.2
          companyName := ""
          companyWebsite := ""
          activeTab := Tab.summaries
          lastCompanyName := cn
          isLoading := false
          error := "" }

def clearSummaries (st : AppState) : AppState :=
  { st with summaries := [], debrief := none, lastCompanyName := "" }

end App

namespace V0

/-- `isNonEmpty` from part_000 (same test as App's `hasText` on strings). -/
def isNonEmpty (s : String) : Bool :=
  !(jsTrim s).isEmpty

structure Debrief where
  title : String
  fullBody : Option String
  bulletPoints : Option (List String)
  totals : Option Json
  bulletPointCount : Option String

/-- `pushIfValid` from part_000 (the permissive variant): error-only and
all-blank candidates are dropped; otherwise empty `title`/`summary`
strings fall back to the error text. -/
def pushIfValid (cn : String) (hint : Option String)
    (fs : List (String × Json)) (uid : Nat) : Option ResearchEntry × Nat :=
  let err := getStr fs "error"
  let title := getStr fs "title"
  let summary := getStr fs "summary"
  let url := getStr fs "url"
  let category :=
    match lookupField fs "category" with
    | some (Json.str c) => c
    | _ => match hint with
      | some h => if h.isEmpty then "Research" else h
      | none => "Research"
  let postedDate := getStr fs "postedDate"
  if isNonEmpty err && !isNonEmpty title && !isNonEmpty summary &&
      !isNonEmpty url then (none, uid)
  else if !isNonEmpty title && !isNonEmpty summary && !isNonEmpty url then
    (none, uid)
  else
    (some {
      id := makeId (uid + 1) (if category.isEmpty then "item" else category),
      companyName := cn,
      category := if category.isEmpty then "Research" else category,
      title := if title.isEmpty then
          (if isNonEmpty err then category ++ " Error" else "") else title,
      summary := if summary.isEmpty then
          (if err.isEmpty then "" else err) else summary,
      url := if isNonEmpty url then url else "#",
      postedDate := if postedDate.isEmpty then none else some postedDate },
     uid + 1)

/-- Debrief extraction from part_000: the peeled first element counts as a
debrief only when it is a plain object with a `fullBody` or `bulletPoints`
key (the comment in the source calls this the marker heuristic). -/
def extractDebrief (first : Json) : Option Debrief :=
  match peel first with
  | Json.obj fs =>
    if hasKey fs "fullBody" || hasKey fs "bulletPoints" then
      some {
        title :=
          match lookupField fs "title" with
          | some (Json.str t) => t
          | _ => "Content Debrief",
        fullBody :=
          match lookupField fs "fullBody" with
          | some (Json.str b) => some b
          | _ => none,
        bulletPoints :=
          match lookupField fs "bulletPoints" with
          | some (Json.arr xs) =>
            some ((xs.filterMap (fun j => match j with
              | Json.str s => some s
              | _ => none)).filter (fun s => !(jsTrim s).isEmpty))
          | _ => none,
        totals :=
          match lookupField fs "totals" with
          | some (Json.obj tfs) => some (Json.obj tfs)
          | some (Json.arr txs) => some (Json.arr txs)
          | _ => none,
        bulletPointCount :=
          match lookupField fs "bulletPointCount" with
          | some (Json.num n) => some n
          | _ => none }
    else none
  | _ => none

end V0


/-! ### Claim-side definitions (views of states and inputs used by the
theorems below) -/

/-- Observable part of an entry: title, summary, url. -/
def entryView (e : ResearchEntry) : String × String × String :=
  (e.title, e.summary, e.url)

/-- The same observables read off a direct-shape JSON candidate. -/
def jsonView : Json → String × String × String
  | Json.obj fs => (getStr fs "title", getStr fs "summary", getStr fs "url")
  | _ => ("", "", "")

/-- The dedup key a direct-shape JSON candidate will produce. -/
def jsonUrlKey : Json → String
  | Json.obj fs => jsToLower (jsTrim (getStr fs "url"))
  | _ => ""

/-- Spec notion of a well-formed direct-shape entry object: a plain object
with non-blank string `title`, `summary` and `url`. -/
def directShapeOk : Json → Bool
  | Json.obj fs =>
    App.hasText (some (getStr fs "title")) &&
      App.hasText (some (getStr fs "summary")) &&
      App.hasText (some (getStr fs "url"))
  | _ => false

/-- A state with the form filled in, as left by a user about to submit. -/
def stExample : App.AppState :=
  App.setForm App.initialState "Acme" "https://acme.example"

/-- The response body of the C3 scenario (braces written as \x7b/\x7d). -/
def c3body : String :=
  "[\x7b\"fullBody\":\"Intro text.\\n- **Risk A**\\n- Risk B\",\"bulletPoints\":[]\x7d,\x7b\"url\":\"http://a.com\",\"title\":\"T\",\"summary\":\"S\"\x7d]"

/-- A two-element array of well-formed direct-shape objects. -/
def c2body : String :=
  "[\x7b\"title\":\"T1\",\"summary\":\"S1\",\"url\":\"http://a\"\x7d,\x7b\"title\":\"T2\",\"summary\":\"S2\",\"url\":\"http://b\"\x7d]"

def c2objs : List Json :=
  [Json.obj [("title", Json.str "T1"), ("summary", Json.str "S1"),
     ("url", Json.str "http://a")],
   Json.obj [("title", Json.str "T2"), ("summary", Json.str "S2"),
     ("url", Json.str "http://b")]]

/-- A single-element body whose only object is a plain object with none of
the debrief markers (no fullBody / bulletPoints / supporting_points /
title). -/
def markerlessBody : String :=
  "[\x7b\"summary\":\"Just a summary\",\"url\":\"http://x\"\x7d]"

/-- A body whose first (and only) element carries a fullBody marker. -/
def debriefOnlyBody : String :=
  "[\x7b\"fullBody\":\"x\"\x7d]"

/-- Two sample entries sharing a normalized URL (used to witness the
dedup rule). -/
def dedupSampleA : ResearchEntry :=
  { id := "1", companyName := "C", category := "Research", title := "A",
    summary := "S1", url := "http://X.com ", postedDate := none }

def dedupSampleB : ResearchEntry :=
  { id := "2", companyName := "C", category := "Research", title := "B",
    summary := "S2", url := "http://x.com", postedDate := none }

/-! ### Generic facts about the embedded operations -/

theorem jsToLower_eq_empty {s : String} (h : jsToLower s = "") : s = "" := by
  unfold jsToLower at h
  have hd : s.data.map Char.toLower = [] := by
    simpa using congrArg String.data h
  have h2 : s.data = [] := List.map_eq_nil_iff.mp hd
  cases s
  simp_all

/-- Every entry with a blank dedup key survives the dedup filter, at any
`seen` set. -/
theorem dedupeAux_filter_blank (l : List ResearchEntry) :
    ∀ seen, (dedupeAux seen l).filter (fun e => decide (normUrlKey e = "")) =
      l.filter (fun e => decide (normUrlKey e = "")) := by
  induction l with
  | nil => intro seen; rfl
  | cons e rest ih =>
    intro seen
    by_cases hk : normUrlKey e = ""
    · simp only [dedupeAux, if_pos hk]
      simp [List.filter_cons, hk, ih seen]
    · simp only [dedupeAux, if_neg hk]
      by_cases hs : normUrlKey e ∈ seen
      · simp only [if_pos hs]
        rw [ih seen]
        simp [List.filter_cons, hk]
      · simp only [if_neg hs]
        simp [List.filter_cons, hk, ih (normUrlKey e :: seen)]

/-- For a non-blank key, the dedup filter keeps exactly the first entry of
the input carrying it (none if the key was already seen). -/
theorem dedupeAux_filter_key (l : List ResearchEntry) (k : String) (hk : k ≠ "") :
    ∀ seen, (dedupeAux seen l).filter (fun e => decide (normUrlKey e = k)) =
      if k ∈ seen then [] else (l.find? (fun e => decide (normUrlKey e = k))).toList := by
  induction l with
  | nil =>
    intro seen
    by_cases hs : k ∈ seen <;> simp [dedupeAux, hs]
  | cons e rest ih =>
    intro seen
    by_cases hke : normUrlKey e = ""
    · have hne : ¬ (normUrlKey e = k) := by
        rw [hke]; exact fun h => hk h.symm
      simp only [dedupeAux, if_pos hke]
      rw [List.filter_cons, ih seen]
      simp [List.find?_cons, hne]
    · simp only [dedupeAux, if_neg hke]
      by_cases hs : normUrlKey e ∈ seen
      · simp only [if_pos hs]
        rw [ih seen]
        by_cases hek : normUrlKey e = k
        · subst hek
          simp [hs, List.find?_cons]
        · simp [List.find?_cons, hek]
      · simp only [if_neg hs]
        rw [List.filter_cons, ih (normUrlKey e :: seen)]
        by_cases hek : normUrlKey e = k
        · subst hek
          simp [hs, List.find?_cons, List.mem_cons]
        · have hkmem : (k ∈ normUrlKey e :: seen) ↔ k ∈ seen := by
            simp [List.mem_cons]
            intro h; exact absurd h.symm hek
          simp [hkmem, List.find?_cons, hek]

theorem mem_of_mem_dedupeAux (l : List ResearchEntry) :
    ∀ seen e, e ∈ dedupeAux seen l → e ∈ l := by
  induction l with
  | nil => intro seen e h; simp [dedupeAux] at h
  | cons a rest ih =>
    intro seen e h
    by_cases hk : normUrlKey a = ""
    · simp only [dedupeAux, if_pos hk, List.mem_cons] at h
      rcases h with h | h
      · exact h ▸ List.mem_cons_self a rest
      · exact List.mem_cons_of_mem a (ih seen e h)
    · simp only [dedupeAux, if_neg hk] at h
      by_cases hs : normUrlKey a ∈ seen
      · rw [if_pos hs] at h
        exact List.mem_cons_of_mem a (ih seen e h)
      · rw [if_neg hs] at h
        rcases List.mem_cons.mp h with h | h
        · exact h ▸ List.mem_cons_self a rest
        · exact List.mem_cons_of_mem a (ih _ e h)

/-- When the incoming batch has pairwise-distinct non-blank keys that avoid
`seen`, the dedup filter is the identity. -/
theorem dedupeAux_eq_self (l : List ResearchEntry)
    (hnb : ∀ e ∈ l, normUrlKey e ≠ "")
    (hpw : (l.map normUrlKey).Pairwise (fun a b => a ≠ b)) :
    ∀ seen, (∀ e ∈ l, normUrlKey e ∉ seen) → dedupeAux seen l = l := by
  induction l with
  | nil => intro seen _; rfl
  | cons a rest ih =>
    intro seen hseen
    have hka : normUrlKey a ≠ "" := hnb a (List.mem_cons_self a rest)
    have hsa : normUrlKey a ∉ seen := hseen a (List.mem_cons_self a rest)
    simp only [dedupeAux, if_neg hka, if_neg hsa]
    rw [List.map_cons, List.pairwise_cons] at hpw
    congr 1
    refine ih (fun e he => hnb e (List.mem_cons_of_mem a he)) hpw.2 _ ?_
    intro e he
    intro hmem
    rcases List.mem_cons.mp hmem with h1 | h2
    · exact hpw.1 (normUrlKey e) (List.mem_map_of_mem normUrlKey he) h1.symm
    · exact hseen e (List.mem_cons_of_mem a he) h2

/-- Generic fold-invariant preservation. -/
theorem foldl_preserve {α β : Type} (P : α → Prop) (f : α → β → α)
    (hf : ∀ a b, P a → P (f a b)) :
    ∀ (l : List β) (a : α), P a → P (l.foldl f a) := by
  intro l
  induction l with
  | nil => intro a ha; exact ha
  | cons b rest ih => intro a ha; exact ih (f a b) (hf a b ha)

/-! ### Facts about entry construction -/

theorem hasKey_of_lookup (fs : List (String × Json)) (k : String) (v : Json)
    (h : lookupField fs k = some v) : hasKey fs k = true := by
  induction fs with
  | nil => simp [lookupField] at h
  | cons p rest ih =>
    by_cases hk : p.1 = k
    · simp [hasKey, List.any_cons, hk]
    · unfold lookupField at h
      rw [if_neg hk] at h
      have := ih h
      unfold hasKey at this ⊢
      rw [List.any_cons, this, Bool.or_true]

theorem hasText_some_ne {s : String} (h : App.hasText (some s) = true) :
    s ≠ "" := by
  intro he
  subst he
  exact absurd h (by decide)

theorem pushIfValid_summary_hasText (cn : String) (hint : Option String)
    (fs : List (String × Json)) (uid : Nat) (e : ResearchEntry)
    (h : (App.pushIfValid cn hint fs uid).1 = some e) :
    App.hasText (some e.summary) = true := by
  unfold App.pushIfValid at h
  by_cases hs : App.hasText (some (getStr fs "summary")) = true
  · rw [if_neg (by simp [hs])] at h
    injection h with h3
    subst h3
    exact hs
  · rw [if_pos (by simp [hs])] at h
    exact Option.noConfusion h

theorem pushIfValid_direct (cn : String) (hint : Option String)
    (fs : List (String × Json)) (uid : Nat)
    (h : directShapeOk (Json.obj fs) = true) :
    ∃ e, App.pushIfValid cn hint fs uid = (some e, uid + 1)
      ∧ entryView e = jsonView (Json.obj fs)
      ∧ normUrlKey e = jsonUrlKey (Json.obj fs)
      ∧ App.hasText (some e.summary) = true := by
  simp only [directShapeOk, Bool.and_eq_true] at h
  obtain ⟨⟨ht, hs⟩, hu⟩ := h
  unfold App.pushIfValid
  simp only [hs, ht, hu, Bool.not_true, if_true, if_false]
  exact ⟨_, rfl, rfl, rfl, hs⟩

/-- Iota-unfolding of `processItem` at a plain object. -/
theorem processItem_obj (cn : String) (acc : List ResearchEntry × Nat)
    (fs : List (String × Json)) :
    App.processItem cn acc (Json.obj fs) =
      if hasKey fs "title" || hasKey fs "summary" || hasKey fs "url" ||
          hasKey fs "category" || hasKey fs "postedDate" then
        App.processCandidate cn none fs acc
      else fs.foldl (fun acc2 kv => App.processGroupVal cn kv.1 kv.2 acc2) acc :=
  rfl

theorem processItem_direct (cn : String) (acc : List ResearchEntry × Nat)
    (j : Json) (hj : directShapeOk j = true) :
    ∃ e, App.processItem cn acc j = (acc.1 ++ [e], acc.2 + 1)
      ∧ entryView e = jsonView j ∧ normUrlKey e = jsonUrlKey j
      ∧ App.hasText (some e.summary) = true := by
  cases j with
  | obj fs =>
    have ht : App.hasText (some (getStr fs "title")) = true := by
      simp only [directShapeOk, Bool.and_eq_true] at hj
      exact hj.1.1
    have hkey : hasKey fs "title" = true := by
      have hne := hasText_some_ne ht
      unfold getStr at hne
      cases hl : lookupField fs "title" with
      | none => rw [hl] at hne; exact absurd rfl hne
      | some v => exact hasKey_of_lookup fs "title" v hl
    obtain ⟨e, he, hv, hk2, hsum⟩ := pushIfValid_direct cn none fs acc.2 hj
    refine ⟨e, ?_, hv, hk2, hsum⟩
    rw [processItem_obj, if_pos (by simp [hkey])]
    unfold App.processCandidate
    rw [he]
  | null => simp [directShapeOk] at hj
  | bool b => simp [directShapeOk] at hj
  | num n => simp [directShapeOk] at hj
  | str s => simp [directShapeOk] at hj
  | arr xs => simp [directShapeOk] at hj

theorem foldl_processItem_direct (cn : String) (objs : List Json) :
    ∀ acc : List ResearchEntry × Nat, (∀ j ∈ objs, directShapeOk j = true) →
    ∃ es, objs.foldl (App.processItem cn) acc = (acc.1 ++ es, acc.2 + objs.length)
      ∧ es.map entryView = objs.map jsonView
      ∧ es.map normUrlKey = objs.map jsonUrlKey
      ∧ ∀ e ∈ es, App.hasText (some e.summary) = true := by
  induction objs with
  | nil =>
    intro acc _
    exact ⟨[], by simp, rfl, rfl, by simp⟩
  | cons j rest ih =>
    intro acc hwf
    obtain ⟨e, he, hv, hk, hsum⟩ :=
      processItem_direct cn acc j (hwf j (List.mem_cons_self j rest))
    obtain ⟨es, hes, hmv, hmk, hgood⟩ :=
      ih (App.processItem cn acc j) (fun j2 h2 => hwf j2 (List.mem_cons_of_mem j h2))
    refine ⟨e :: es, ?_, ?_, ?_, ?_⟩
    · rw [List.foldl_cons, hes]
      simp only [he, Prod.mk.injEq, List.length_cons]
      constructor
      · simp [List.append_assoc]
      · omega
    · simp [hmv, hv]
    · simp [hmk, hk]
    · intro e2 h2
      rcases List.mem_cons.mp h2 with h3 | h3
      · exact h3 ▸ hsum
      · exact hgood e2 h3

theorem processCandidate_good (cn : String) (hint : Option String)
    (fs : List (String × Json)) (acc : List ResearchEntry × Nat)
    (hacc : ∀ e ∈ acc.1, App.hasText (some e.summary) = true) :
    ∀ e ∈ (App.processCandidate cn hint fs acc).1,
      App.hasText (some e.summary) = true := by
  intro e he
  unfold App.processCandidate at he
  rcases hpv : App.pushIfValid cn hint fs acc.2 with ⟨oe, u⟩
  rw [hpv] at he
  cases oe with
  | none => exact hacc e he
  | some e2 =>
    rcases List.mem_append.mp he with h1 | h1
    · exact hacc e h1
    · have he2 : e = e2 := by simpa using h1
      subst he2
      exact pushIfValid_summary_hasText cn hint fs acc.2 e
        (by rw [hpv])

theorem processGroupVal_good (cn category : String) (rawVal : Json)
    (acc : List ResearchEntry × Nat)
    (hacc : ∀ e ∈ acc.1, App.hasText (some e.summary) = true) :
    ∀ e ∈ (App.processGroupVal cn category rawVal acc).1,
      App.hasText (some e.summary) = true := by
  unfold App.processGroupVal
  cases hp : peel rawVal with
  | arr children =>
    refine foldl_preserve
      (fun a => ∀ e ∈ a.1, App.hasText (some e.summary) = true) _ ?_
      children acc hacc
    intro a child ha
    cases hc : peel child with
    | obj fs => exact processCandidate_good cn (some category) fs a ha
    | null => exact ha
    | bool b => exact ha
    | num n => exact ha
    | str s => exact ha
    | arr xs => exact ha
  | obj fs => exact processCandidate_good cn (some category) fs acc hacc
  | null => exact hacc
  | bool b => exact hacc
  | num n => exact hacc
  | str s => exact hacc

theorem processItem_good (cn : String) (acc : List ResearchEntry × Nat)
    (item : Json)
    (hacc : ∀ e ∈ acc.1, App.hasText (some e.summary) = true) :
    ∀ e ∈ (App.processItem cn acc item).1,
      App.hasText (some e.summary) = true := by
  cases item with
  | obj fs =>
    rw [processItem_obj]
    by_cases hd : (hasKey fs "title" || hasKey fs "summary" || hasKey fs "url" ||
        hasKey fs "category" || hasKey fs "postedDate") = true
    · rw [if_pos hd]
      exact processCandidate_good cn none fs acc hacc
    · rw [if_neg hd]
      refine foldl_preserve
        (fun a => ∀ e ∈ a.1, App.hasText (some e.summary) = true) _ ?_
        fs acc hacc
      intro a kv ha
      exact processGroupVal_good cn kv.1 kv.2 a ha
  | null => exact hacc
  | bool b => exact hacc
  | num n => exact hacc
  | str s => exact hacc
  | arr xs => exact hacc

/-- Every entry a batch produces has a non-blank summary (App variant):
this is what distinguishes real entries from the synthetic placeholder. -/
theorem newEntriesOf_good (cn : String) (uid : Nat) (body : String) :
    ∀ e ∈ (App.newEntriesOf cn uid body).1,
      App.hasText (some e.summary) = true := by
  unfold App.newEntriesOf
  refine foldl_preserve
    (fun a => ∀ e ∈ a.1, App.hasText (some e.summary) = true)
    (App.processItem cn) ?_ _ (([] : List ResearchEntry), uid) ?_
  · intro a b ha
    exact processItem_good cn a b ha
  · simp

/-- `submitResearch` on a successful fetch, with the validation gate
discharged. -/
theorem submit_success_eq (st : App.AppState) (body : String)
    (h : App.validForm st = true) :
    App.submitResearch st (FetchOutcome.success body) =
      if (dedupeByUrl (App.newEntriesOf st.companyName st.uid body).1).isEmpty &&
          (App.debriefAfter st body).isNone then
        { st with
          summaries := App.placeholderEntry st.companyName
            ((App.newEntriesOf st.companyName st.uid body).2 + 1) :: st.summaries
          debrief := App.debriefAfter st body
          uid := (App.newEntriesOf st.companyName st.uid body).2 + 1
          companyName := ""
          companyWebsite := ""
          activeTab := Tab.summaries
          lastCompanyName := st.companyName
          isLoading := false
          error := "" }
      else
        { st with
          summaries :=
            dedupeByUrl (App.newEntriesOf st.companyName st.uid body).1 ++
              st.summaries
          debrief := App.debriefAfter st body
          uid := (App.newEntriesOf st.companyName st.uid body).2
          companyName := ""
          companyWebsite := ""
          activeTab := Tab.summaries
          lastCompanyName := st.companyName
          isLoading := false
          error := "" } := by
  unfold App.submitResearch
  rw [h]
  rfl

theorem submit_invalid (st : App.AppState) (oc : FetchOutcome)
    (h : App.validForm st = false) :
    App.submitResearch st oc =
      { st with error := "Company name and website are required" } := by
  unfold App.submitResearch
  rw [h]
  rfl

theorem submit_networkError (st : App.AppState) (msg : String)
    (h : App.validForm st = true) :
    App.submitResearch st (FetchOutcome.networkError msg) =
      { st with
        lastCompanyName := st.companyName
        isLoading := false
        error := corsRewrite msg } := by
  unfold App.submitResearch
  rw [h]
  rfl

theorem submit_httpError (st : App.AppState) (status : Nat)
    (stext bodyText : String) (h : App.validForm st = true) :
    App.submitResearch st (FetchOutcome.httpError status stext bodyText) =
      { st with
        lastCompanyName := st.companyName
        isLoading := false
        error := corsRewrite ("HTTP " ++ toString status ++ " " ++ stext ++
          (if bodyText.isEmpty then "" else " - " ++ bodyText)) } := by
  unfold App.submitResearch
  rw [h]
  rfl

theorem submit_success_debrief (st : App.AppState) (body : String)
    (h : App.validForm st = true) :
    (App.submitResearch st (FetchOutcome.success body)).debrief =
      App.debriefAfter st body := by
  rw [submit_success_eq st body h]
  by_cases hc : ((dedupeByUrl (App.newEntriesOf st.companyName st.uid body).1).isEmpty &&
      (App.debriefAfter st body).isNone) = true
  · rw [if_pos hc]
  · rw [if_neg hc]

theorem submit_success_summaries (st : App.AppState) (body : String)
    (h : App.validForm st = true) :
    (App.submitResearch st (FetchOutcome.success body)).summaries =
      if (dedupeByUrl (App.newEntriesOf st.companyName st.uid body).1).isEmpty &&
          (App.debriefAfter st body).isNone then
        App.placeholderEntry st.companyName
          ((App.newEntriesOf st.companyName st.uid body).2 + 1) :: st.summaries
      else
        dedupeByUrl (App.newEntriesOf st.companyName st.uid body).1 ++
          st.summaries := by
  rw [submit_success_eq st body h]
  by_cases hc : ((dedupeByUrl (App.newEntriesOf st.companyName st.uid body).1).isEmpty &&
      (App.debriefAfter st body).isNone) = true
  · rw [if_pos hc, if_pos hc]
  · rw [if_neg hc, if_neg hc]

theorem debriefAfter_extract (st : App.AppState) (body : String)
    (first : Json) (rest : List Json)
    (hb : toBaseList ((parseJsonStr body).getD Json.null) = first :: rest)
    (d : App.Debrief) (hd : App.extractDebrief first = some d) :
    App.debriefAfter st body = some d := by
  unfold App.debriefAfter
  simp only [hb, hd]

theorem debriefAfter_persist_cons (st : App.AppState) (body : String)
    (first : Json) (rest : List Json)
    (hb : toBaseList ((parseJsonStr body).getD Json.null) = first :: rest)
    (hd : App.extractDebrief first = none) :
    App.debriefAfter st body = st.debrief := by
  unfold App.debriefAfter
  simp only [hb, hd]

theorem debriefAfter_persist_nil (st : App.AppState) (body : String)
    (hb : toBaseList ((parseJsonStr body).getD Json.null) = []) :
    App.debriefAfter st body = st.debrief := by
  unfold App.debriefAfter
  simp only [hb]

theorem newEntriesOf_extract (cn : String) (uid : Nat) (body : String)
    (first : Json) (rest : List Json)
    (hb : toBaseList ((parseJsonStr body).getD Json.null) = first :: rest)
    (d : App.Debrief) (hd : App.extractDebrief first = some d) :
    App.newEntriesOf cn uid body =
      rest.foldl (App.processItem cn) (([] : List ResearchEntry), uid) := by
  unfold App.newEntriesOf
  simp only [hb, hd]

theorem extractDebrief_isSome (j : Json) :
    (App.extractDebrief j).isSome = true ↔ ∃ fs, peel j = Json.obj fs := by
  unfold App.extractDebrief
  cases hp : peel j with
  | obj fs => simp
  | null => simp
  | bool b => simp
  | num n => simp
  | str s => simp
  | arr xs => simp

theorem extractDebrief_v0_isSome (j : Json) :
    (V0.extractDebrief j).isSome = true ↔
      ∃ fs, peel j = Json.obj fs ∧
        (hasKey fs "fullBody" || hasKey fs "bulletPoints") = true := by
  unfold V0.extractDebrief
  cases hp : peel j with
  | obj fs =>
    by_cases hm : (hasKey fs "fullBody" || hasKey fs "bulletPoints") = true
    · simp only [hm, if_true, Option.isSome_some, true_iff]
      exact ⟨fs, rfl, hm⟩
    · have hm2 : (hasKey fs "fullBody" || hasKey fs "bulletPoints") = false := by
        simpa using hm
      simp only [hm2, Bool.false_eq_true, if_false, Option.isSome_none, false_iff]
      intro hcon
      obtain ⟨fs2, hfs2, hm3⟩ := hcon
      cases hfs2
      exact hm hm3
  | null => simp
  | bool b => simp
  | num n => simp
  | str s => simp
  | arr xs => simp

theorem jsonUrlKey_ne_of_direct (j : Json) (hj : directShapeOk j = true) :
    jsonUrlKey j ≠ "" := by
  cases j with
  | obj fs =>
    simp only [directShapeOk, Bool.and_eq_true] at hj
    have hu := hj.2
    intro hcon
    have h1 : jsTrim (getStr fs "url") = "" := jsToLower_eq_empty hcon
    have hu2 : (!(jsTrim (getStr fs "url")).isEmpty) = true := hu
    rw [h1] at hu2
    exact absurd hu2 (by decide)
  | null => simp [directShapeOk] at hj
  | bool b => simp [directShapeOk] at hj
  | num n => simp [directShapeOk] at hj
  | str s => simp [directShapeOk] at hj
  | arr xs => simp [directShapeOk] at hj

/-! ### Claims -/

/-- C1 (counterexample): the claim says a plain-object first element with
none of the recognized debrief markers is NOT consumed as a Debrief and
remains available for entry extraction.  On the current code the body
`[{"summary":"Just a summary","url":"http://x"}]` (no fullBody /
bulletPoints / supporting_points / title) is nevertheless consumed as a
Debrief and yields no entry at all. -/
theorem c1_marker_cex :
    ((App.submitResearch stExample (FetchOutcome.success markerlessBody)).debrief.map
      (fun d => d.title)) = some "Content Debrief"
    ∧ (App.submitResearch stExample (FetchOutcome.success markerlessBody)).summaries = [] := by
  constructor
  · rfl
  · rfl

/-- C1 (amended): in the current variant (App.svelte) the normalizer
extracts a Debrief from the first element exactly when, after un-escaping
up to 2 levels, that element is a plain object — no marker is required at
all; in the earlier variant (part_000) extraction additionally requires a
`fullBody` or `bulletPoints` key (`supporting_points` and `title` do not
qualify there). -/
theorem c1_extraction_rule (j : Json) :
    ((App.extractDebrief j).isSome = true ↔ ∃ fs, peel j = Json.obj fs)
    ∧ ((V0.extractDebrief j).isSome = true ↔
        ∃ fs, peel j = Json.obj fs ∧
          (hasKey fs "fullBody" || hasKey fs "bulletPoints") = true) := by
  exact ⟨extractDebrief_isSome j, extractDebrief_v0_isSome j⟩

/-- C2 (counterexample): a JSON array of one well-formed direct-shape
entry object yields zero entries (the claim demands exactly one): the
first element is consumed as the Debrief. -/
theorem c2_first_consumed_cex :
    (App.submitResearch stExample
      (FetchOutcome.success "[\x7b\"title\":\"T\",\"summary\":\"S\",\"url\":\"http://a.com\"\x7d]")).summaries = []
    ∧ ((App.submitResearch stExample
      (FetchOutcome.success "[\x7b\"title\":\"T\",\"summary\":\"S\",\"url\":\"http://a.com\"\x7d]")).debrief.map
        (fun d => d.title)) = some "T" := by
  constructor
  · rfl
  · rfl

/-- C2 (amended): for a body parsing to a non-empty array of N well-formed
direct-shape objects with pairwise-distinct normalized URLs, the first
object is consumed as the Debrief and exactly the remaining N−1 yield
entries, in input order, prepended before the accumulated list. -/
theorem c2_direct_shape (st : App.AppState) (body : String) (objs : List Json)
    (hv : App.validForm st = true)
    (hp : parseJsonStr body = some (Json.arr objs))
    (hne : objs ≠ [])
    (hwf : ∀ j ∈ objs, directShapeOk j = true)
    (hdist : (objs.map jsonUrlKey).Pairwise (fun a b => a ≠ b)) :
    (App.submitResearch st (FetchOutcome.success body)).debrief.isSome = true
    ∧ (App.submitResearch st (FetchOutcome.success body)).summaries.map entryView =
        objs.tail.map jsonView ++ st.summaries.map entryView
    ∧ (App.submitResearch st (FetchOutcome.success body)).summaries.length =
        (objs.length - 1) + st.summaries.length := by
  obtain ⟨first, rest, rfl⟩ := List.exists_cons_of_ne_nil hne
  have hb : toBaseList ((parseJsonStr body).getD Json.null) = first :: rest := by
    rw [hp]
    rfl
  have hfo : directShapeOk first = true := hwf first (List.mem_cons_self _ _)
  have hobj : ∃ ffs, first = Json.obj ffs := by
    cases first with
    | obj fs => exact ⟨fs, rfl⟩
    | null => simp [directShapeOk] at hfo
    | bool b => simp [directShapeOk] at hfo
    | num n => simp [directShapeOk] at hfo
    | str s => simp [directShapeOk] at hfo
    | arr xs => simp [directShapeOk] at hfo
  obtain ⟨ffs, rfl⟩ := hobj
  have hd : ∃ d, App.extractDebrief (Json.obj ffs) = some d := ⟨_, rfl⟩
  obtain ⟨d, hd⟩ := hd
  have hdeb : App.debriefAfter st body = some d :=
    debriefAfter_extract st body _ rest hb d hd
  have hne2 : App.newEntriesOf st.companyName st.uid body =
      rest.foldl (App.processItem st.companyName) (([] : List ResearchEntry), st.uid) :=
    newEntriesOf_extract st.companyName st.uid body _ rest hb d hd
  obtain ⟨es, hes, hmv, hmk, hgood⟩ :=
    foldl_processItem_direct st.companyName rest (([] : List ResearchEntry), st.uid)
      (fun j hj => hwf j (List.mem_cons_of_mem _ hj))
  have hents : (App.newEntriesOf st.companyName st.uid body).1 = es := by
    rw [hne2, hes]
    simp
  have hnb : ∀ e ∈ es, normUrlKey e ≠ "" := by
    intro e he
    have hmem : normUrlKey e ∈ es.map normUrlKey := List.mem_map_of_mem _ he
    rw [hmk] at hmem
    obtain ⟨j, hj, hkey⟩ := List.mem_map.mp hmem
    rw [← hkey]
    exact jsonUrlKey_ne_of_direct j (hwf j (List.mem_cons_of_mem _ hj))
  have hdist2 : (es.map normUrlKey).Pairwise (fun a b => a ≠ b) := by
    rw [hmk]
    exact (List.pairwise_cons.mp (by simpa using hdist)).2
  have hdd : dedupeByUrl es = es :=
    dedupeAux_eq_self es hnb hdist2 []
      (fun e he hmem => absurd hmem (List.not_mem_nil _))
  have hcond : ((dedupeByUrl (App.newEntriesOf st.companyName st.uid body).1).isEmpty &&
      (App.debriefAfter st body).isNone) = false := by
    rw [hdeb]
    simp
  have heslen : es.length = rest.length := by
    have := congrArg List.length hmv
    simpa using this
  refine ⟨?_, ?_, ?_⟩
  · rw [submit_success_debrief st body hv, hdeb]
    rfl
  · rw [submit_success_summaries st body hv, hcond]
    simp only [Bool.false_eq_true, if_false]
    rw [hents, hdd, List.map_append, hmv]
    simp
  · rw [submit_success_summaries st body hv, hcond]
    simp only [Bool.false_eq_true, if_false]
    rw [hents, hdd, List.length_append, heslen]
    simp

theorem c2_direct_shape_witness :
    (App.submitResearch stExample (FetchOutcome.success c2body)).summaries.map entryView =
      [("T2", "S2", "http://b")] := by
  have h := (c2_direct_shape stExample c2body c2objs (by decide) (by rfl)
    (by simp [c2objs]) (by decide) (by decide)).2.1
  simpa [c2objs, stExample, App.setForm, App.initialState] using h

set_option maxRecDepth 4000 in
/-- C3 (counterexample): on the scenario body the produced Debrief has
`bulletPoints = []`, not `["Risk A", "Risk B"]`: the explicit (empty)
`bulletPoints` array wins over the fullBody-derived bullets, because any
present array — truthy in JS — short-circuits the fallback chain. -/
theorem c3_bullets_cex :
    ((App.submitResearch stExample (FetchOutcome.success c3body)).debrief.map
      (fun d => d.bulletPoints)) = some []
    ∧ some ([] : List String) ≠ some ["Risk A", "Risk B"] := by
  constructor
  · rfl
  · simp

set_option maxRecDepth 4000 in
/-- C3 (amended): the scenario yields a Debrief titled "Content Debrief"
with `executiveSummary` derived from `"Intro text."` and `bulletPoints`
empty (the explicit empty array takes priority over fullBody), and exactly
one entry with title "T" and url "http://a.com". -/
theorem c3_scenario :
    ((App.submitResearch stExample (FetchOutcome.success c3body)).debrief.map
      (fun d => (d.title, d.executiveSummary, d.bulletPoints))) =
        some ("Content Debrief", some "Intro text.", [])
    ∧ (App.submitResearch stExample (FetchOutcome.success c3body)).summaries.map entryView =
        [("T", "S", "http://a.com")] := by
  constructor
  · rfl
  · rfl

theorem placeholder_summary_blank (cn : String) (uid : Nat) :
    App.hasText (some (App.placeholderEntry cn uid).summary) = false := rfl

/-- C4 (counterexample): a successful submission whose response is `[]`
(nothing debrief-shaped at all) does NOT clear the Debrief: the one from
the previous submission persists. -/
theorem c4_stale_cex :
    toBaseList ((parseJsonStr "[]").getD Json.null) = []
    ∧ ((App.submitResearch (App.setForm (App.submitResearch stExample
          (FetchOutcome.success debriefOnlyBody)) "B" "w")
        (FetchOutcome.success "[]")).debrief.map fun d => d.title) =
          some "Content Debrief" := by
  constructor
  · rfl
  · rfl

/-- C4 (amended): the Debrief field is a single value (so at most one is
live); a successful submission replaces it exactly when the batch's first
element extracts as a Debrief, otherwise the previous Debrief persists
(it is not cleared); the Clear All action resets it to absent. -/
theorem c4_debrief_lifecycle (st : App.AppState) (body : String)
    (hv : App.validForm st = true) :
    (∀ first rest d,
        toBaseList ((parseJsonStr body).getD Json.null) = first :: rest →
        App.extractDebrief first = some d →
        (App.submitResearch st (FetchOutcome.success body)).debrief = some d)
    ∧ (∀ first rest,
        toBaseList ((parseJsonStr body).getD Json.null) = first :: rest →
        App.extractDebrief first = none →
        (App.submitResearch st (FetchOutcome.success body)).debrief = st.debrief)
    ∧ (toBaseList ((parseJsonStr body).getD Json.null) = [] →
        (App.submitResearch st (FetchOutcome.success body)).debrief = st.debrief)
    ∧ (App.clearSummaries st).debrief = none := by
  refine ⟨?_, ?_, ?_, rfl⟩
  · intro first rest d hb hd
    rw [submit_success_debrief st body hv]
    exact debriefAfter_extract st body first rest hb d hd
  · intro first rest hb hd
    rw [submit_success_debrief st body hv]
    exact debriefAfter_persist_cons st body first rest hb hd
  · intro hb
    rw [submit_success_debrief st body hv]
    exact debriefAfter_persist_nil st body hb

theorem c4_debrief_lifecycle_witness :
    (App.submitResearch stExample (FetchOutcome.success debriefOnlyBody)).debrief =
      some { title := "Content Debrief", executiveSummary := some "x",
             fullBody := some "x", bulletPoints := [], totals := none,
             bulletPointCount := none } :=
  (c4_debrief_lifecycle stExample debriefOnlyBody (by decide)).1
    (Json.obj [("fullBody", Json.str "x")]) [] _ (by rfl) (by rfl)

/-- C5 (counterexample): second submission: empty batch (no entries, no
debrief-shaped first element), yet no placeholder is synthesized, because
the stale Debrief of the previous submission is still live. -/
theorem c5_stale_debrief_cex :
    (App.submitResearch (App.setForm (App.submitResearch stExample
          (FetchOutcome.success debriefOnlyBody)) "B" "w")
        (FetchOutcome.success "[]")).summaries = []
    ∧ dedupeByUrl (App.newEntriesOf "B"
        (App.submitResearch stExample (FetchOutcome.success debriefOnlyBody)).uid
        "[]").1 = []
    ∧ toBaseList ((parseJsonStr "[]").getD Json.null) = [] := by
  refine ⟨rfl, rfl, rfl⟩

/-- C5 (amended): the placeholder is prepended iff the batch's
deduplicated entry list is empty AND the Debrief live after this batch's
extraction step is absent — i.e. none was extracted from this batch and
none survived from an earlier submission. -/
theorem c5_placeholder_rule (st : App.AppState) (body : String)
    (hv : App.validForm st = true) :
    (App.submitResearch st (FetchOutcome.success body)).summaries =
        App.placeholderEntry st.companyName
          ((App.newEntriesOf st.companyName st.uid body).2 + 1) :: st.summaries
      ↔ (dedupeByUrl (App.newEntriesOf st.companyName st.uid body).1 = []
          ∧ App.debriefAfter st body = none) := by
  rw [submit_success_summaries st body hv]
  by_cases hc : ((dedupeByUrl (App.newEntriesOf st.companyName st.uid body).1).isEmpty &&
      (App.debriefAfter st body).isNone) = true
  · rw [if_pos hc]
    rw [Bool.and_eq_true] at hc
    have h1 : dedupeByUrl (App.newEntriesOf st.companyName st.uid body).1 = [] :=
      List.isEmpty_iff.mp hc.1
    have h2 : App.debriefAfter st body = none :=
      Option.isNone_iff_eq_none.mp hc.2
    exact ⟨fun _ => ⟨h1, h2⟩, fun _ => rfl⟩
  · rw [if_neg hc]
    constructor
    · intro heq
      exfalso
      cases hdd : dedupeByUrl (App.newEntriesOf st.companyName st.uid body).1 with
      | nil =>
        rw [hdd] at heq
        have hlen := congrArg List.length heq
        simp at hlen
      | cons d ds =>
        rw [hdd, List.cons_append] at heq
        injection heq with h1 h2
        have hmem : d ∈ dedupeByUrl (App.newEntriesOf st.companyName st.uid body).1 := by
          rw [hdd]
          exact List.mem_cons_self d ds
        have hmem2 := mem_of_mem_dedupeAux _ [] d hmem
        have hsum := newEntriesOf_good st.companyName st.uid body d hmem2
        rw [h1] at hsum
        have hb2 := placeholder_summary_blank st.companyName
          ((App.newEntriesOf st.companyName st.uid body).2 + 1)
        rw [hsum] at hb2
        exact Bool.noConfusion hb2
    · intro h
      obtain ⟨h1, h2⟩ := h
      exact absurd (by rw [h1, h2]; rfl) hc

theorem c5_placeholder_rule_witness :
    (App.submitResearch stExample (FetchOutcome.success "[]")).summaries =
      App.placeholderEntry stExample.companyName
        ((App.newEntriesOf stExample.companyName stExample.uid "[]").2 + 1) ::
        stExample.summaries :=
  (c5_placeholder_rule stExample "[]" (by decide)).mpr ⟨rfl, rfl⟩

theorem isEmpty_false_iff (s : String) : (s.isEmpty = false) ↔ s ≠ "" := by
  constructor
  · intro h hc
    subst hc
    exact absurd h (by decide)
  · intro h
    cases he : s.isEmpty
    · rfl
    · exact absurd ((String.isEmpty_iff s).mp he) h

/-- C6: within one batch, dedup keeps, for every non-blank normalized URL,
exactly the first entry carrying it; entries with a blank normalized URL
are all kept; and the previously accumulated entries are never deduped —
each successful submission only prepends in front of them. -/
theorem c6_dedup_rule (l : List ResearchEntry) (k : String) (st : App.AppState)
    (body : String) (hk : k ≠ "") :
    ((dedupeByUrl l).filter (fun e => decide (normUrlKey e = k)) =
        (l.find? (fun e => decide (normUrlKey e = k))).toList)
    ∧ ((dedupeByUrl l).filter (fun e => decide (normUrlKey e = "")) =
        l.filter (fun e => decide (normUrlKey e = "")))
    ∧ (∃ newPart, (App.submitResearch st (FetchOutcome.success body)).summaries =
        newPart ++ st.summaries) := by
  refine ⟨?_, ?_, ?_⟩
  · have h := dedupeAux_filter_key l k hk []
    simpa [dedupeByUrl] using h
  · exact dedupeAux_filter_blank l []
  · by_cases hv : App.validForm st = true
    · rw [submit_success_summaries st body hv]
      by_cases hc : ((dedupeByUrl (App.newEntriesOf st.companyName st.uid body).1).isEmpty &&
          (App.debriefAfter st body).isNone) = true
      · rw [if_pos hc]
        exact ⟨[App.placeholderEntry st.companyName
          ((App.newEntriesOf st.companyName st.uid body).2 + 1)], rfl⟩
      · rw [if_neg hc]
        exact ⟨dedupeByUrl (App.newEntriesOf st.companyName st.uid body).1, rfl⟩
    · rw [submit_invalid st _ (by simpa using hv)]
      exact ⟨[], rfl⟩

theorem c6_dedup_rule_witness :
    (dedupeByUrl [dedupSampleA, dedupSampleB]).filter
      (fun e => decide (normUrlKey e = "http://x.com")) = [dedupSampleA] := by
  have h := (c6_dedup_rule [dedupSampleA, dedupSampleB] "http://x.com"
    stExample "[]" (by decide)).1
  rw [h]
  rfl

/-- C7 (counterexample): on the current code, a candidate with non-blank
title and url but blank summary yields NO entry — the baseline rule in
App.svelte is the strict summary-required variant, not the permissive one
(the earlier variant does keep this candidate). -/
theorem c7_strict_cex :
    (App.pushIfValid "C" none [("title", Json.str "T"), ("url", Json.str "u")] 0).1 = none
    ∧ (V0.pushIfValid "C" none [("title", Json.str "T"), ("url", Json.str "u")] 0).1.isSome = true := by
  constructor
  · rfl
  · rfl

/-- C7 (amended): the current variant accepts a candidate iff its summary
is non-blank; the earlier (permissive) variant accepts it iff any of
title/summary/url is non-blank (error-only payloads have all three blank
and are dropped), and substitutes the error text as the summary when the
raw summary field is empty and an error is present. -/
theorem c7_validity_rule (cn : String) (hint : Option String)
    (fs : List (String × Json)) (uid : Nat) :
    ((App.pushIfValid cn hint fs uid).1.isSome = true ↔
        App.hasText (some (getStr fs "summary")) = true)
    ∧ ((V0.pushIfValid cn hint fs uid).1.isSome = true ↔
        (V0.isNonEmpty (getStr fs "title") || V0.isNonEmpty (getStr fs "summary") ||
          V0.isNonEmpty (getStr fs "url")) = true)
    ∧ (∀ e, (V0.pushIfValid cn hint fs uid).1 = some e →
        getStr fs "summary" = "" → getStr fs "error" ≠ "" →
        e.summary = getStr fs "error") := by
  refine ⟨?_, ?_, ?_⟩
  · unfold App.pushIfValid
    by_cases hs : App.hasText (some (getStr fs "summary")) = true
    · rw [if_neg (by simp [hs])]
      exact ⟨fun _ => hs, fun _ => rfl⟩
    · rw [if_pos (by simp [hs])]
      constructor
      · intro hco
        exact absurd hco (by simp)
      · intro hco
        exact absurd hco hs
  · by_cases h3 : (V0.isNonEmpty (getStr fs "title") || V0.isNonEmpty (getStr fs "summary") ||
        V0.isNonEmpty (getStr fs "url")) = true
    · have h4 : (V0.isNonEmpty (getStr fs "title") = true) ∨
          (V0.isNonEmpty (getStr fs "summary") = true) ∨
          (V0.isNonEmpty (getStr fs "url") = true) := by
        simpa [Bool.or_eq_true, or_assoc] using h3
      have hc1 : (V0.isNonEmpty (getStr fs "error") && !V0.isNonEmpty (getStr fs "title") &&
          !V0.isNonEmpty (getStr fs "summary") && !V0.isNonEmpty (getStr fs "url")) = false := by
        rcases h4 with h | h | h <;> simp [h]
      have hc2 : (!V0.isNonEmpty (getStr fs "title") && !V0.isNonEmpty (getStr fs "summary") &&
          !V0.isNonEmpty (getStr fs "url")) = false := by
        rcases h4 with h | h | h <;> simp [h]
      unfold V0.pushIfValid
      simp only [hc1, hc2, Bool.false_eq_true, if_false]
      simp [h3]
    · have h5 : (V0.isNonEmpty (getStr fs "title") = false) ∧
          (V0.isNonEmpty (getStr fs "summary") = false) ∧
          (V0.isNonEmpty (getStr fs "url") = false) := by
        revert h3
        cases V0.isNonEmpty (getStr fs "title") <;>
          cases V0.isNonEmpty (getStr fs "summary") <;>
          cases V0.isNonEmpty (getStr fs "url") <;> simp
      unfold V0.pushIfValid
      by_cases he : V0.isNonEmpty (getStr fs "error") = true
      · rw [if_pos (by simp [he, h5.1, h5.2.1, h5.2.2])]
        simp [h3]
      · rw [if_neg (by simp [he])]
        rw [if_pos (by simp [h5.1, h5.2.1, h5.2.2])]
        simp [h3]
  · intro e hpv hs0 herr
    unfold V0.pushIfValid at hpv
    by_cases hc1 : (V0.isNonEmpty (getStr fs "error") && !V0.isNonEmpty (getStr fs "title") &&
        !V0.isNonEmpty (getStr fs "summary") && !V0.isNonEmpty (getStr fs "url")) = true
    · rw [if_pos hc1] at hpv
      exact Option.noConfusion hpv
    · rw [if_neg hc1] at hpv
      by_cases hc2 : (!V0.isNonEmpty (getStr fs "title") && !V0.isNonEmpty (getStr fs "summary") &&
          !V0.isNonEmpty (getStr fs "url")) = true
      · rw [if_pos hc2] at hpv
        exact Option.noConfusion hpv
      · rw [if_neg hc2] at hpv
        injection hpv with h6
        subst h6
        show (if (getStr fs "summary").isEmpty = true then
            (if (getStr fs "error").isEmpty = true then "" else getStr fs "error")
          else getStr fs "summary") = getStr fs "error"
        rw [hs0]
        rw [if_pos (by rfl)]
        rw [if_neg (fun h => herr ((String.isEmpty_iff _).mp h))]

theorem c7_validity_rule_witness :
    ((V0.pushIfValid "C" none [("url", Json.str "u"), ("error", Json.str "E")] 0).1.map
      (fun e => e.summary)) = some "E" := by
  have hc : (V0.pushIfValid "C" none
      [("url", Json.str "u"), ("error", Json.str "E")] 0).1 =
      some { id := "1-Research", companyName := "C", category := "Research",
             title := "Research Error", summary := "E", url := "u",
             postedDate := none } := rfl
  have h4 := (c7_validity_rule "C" none
    [("url", Json.str "u"), ("error", Json.str "E")] 0).2.2
    { id := "1-Research", companyName := "C", category := "Research",
      title := "Research Error", summary := "E", url := "u",
      postedDate := none } hc (by rfl) (by decide)
  rw [hc]
  exact congrArg some h4

/-- C8 (counterexample): the body `{}` yields zero real entries but does
NOT trigger the synthetic placeholder: the empty object is consumed as an
(empty) Debrief, so the summaries list stays empty. -/
theorem c8_empty_object_cex :
    (App.submitResearch stExample (FetchOutcome.success "\x7b\x7d")).summaries = []
    ∧ ((App.submitResearch stExample (FetchOutcome.success "\x7b\x7d")).debrief.map
        (fun d => d.title)) = some "Content Debrief" := by
  constructor
  · rfl
  · rfl

/-- C8 (amended): the normalizer is a total function and the handler
surfaces no error on garbage bodies; starting from a state with no live
debrief, non-JSON text and `[]` yield zero real entries plus the
placeholder, while `\x7b\x7d` yields zero entries and an empty synthetic
Debrief ("Content Debrief") instead of the placeholder. -/
theorem c8_garbage_bodies :
    ((App.submitResearch stExample (FetchOutcome.success "not json")).summaries.map entryView =
        [("No articles found", "", "#")]
      ∧ (App.submitResearch stExample (FetchOutcome.success "not json")).error = ""
      ∧ (App.submitResearch stExample (FetchOutcome.success "not json")).debrief = none)
    ∧ ((App.submitResearch stExample (FetchOutcome.success "[]")).summaries.map entryView =
        [("No articles found", "", "#")]
      ∧ (App.submitResearch stExample (FetchOutcome.success "[]")).error = ""
      ∧ (App.submitResearch stExample (FetchOutcome.success "[]")).debrief = none)
    ∧ ((App.submitResearch stExample (FetchOutcome.success "\x7b\x7d")).summaries = []
      ∧ (App.submitResearch stExample (FetchOutcome.success "\x7b\x7d")).error = ""
      ∧ ((App.submitResearch stExample (FetchOutcome.success "\x7b\x7d")).debrief.map
          (fun d => (d.title, d.executiveSummary, d.bulletPoints))) =
            some ("Content Debrief", none, [])) := by
  exact ⟨⟨rfl, rfl, rfl⟩, ⟨rfl, rfl, rfl⟩, ⟨rfl, rfl, rfl⟩⟩

/-- C9: submission is gated on both fields being non-blank after trimming:
when either is blank, the submit handler sets only the validation error
and no request payload is built; when both are non-blank, the request
payload carrying the (untrimmed) field values is sent. -/
theorem c9_validation_gate (st : App.AppState) :
    (App.validForm st = false →
      App.requestSent st = none
      ∧ ∀ oc, App.submitResearch st oc =
          { st with error := "Company name and website are required" })
    ∧ (App.validForm st = true →
      App.requestSent st = some (st.companyName, st.companyWebsite))
    ∧ (App.validForm st = true ↔
        (jsTrim st.companyName ≠ "" ∧ jsTrim st.companyWebsite ≠ "")) := by
  refine ⟨?_, ?_, ?_⟩
  · intro h
    constructor
    · unfold App.requestSent
      rw [h]
      rfl
    · intro oc
      exact submit_invalid st oc h
  · intro h
    unfold App.requestSent
    rw [h]
    rfl
  · unfold App.validForm
    rw [Bool.and_eq_true, Bool.not_eq_true', Bool.not_eq_true']
    rw [isEmpty_false_iff, isEmpty_false_iff]

theorem c9_validation_gate_witness :
    App.requestSent (App.setForm App.initialState "  " "https://a") = none :=
  ((c9_validation_gate (App.setForm App.initialState "  " "https://a")).1 (by decide)).1

/-- C10 (counterexample): an HTTP failure does update more than the error
message and the busy flag: `lastCompanyName` is overwritten with the
submitted company name before the fetch and is not rolled back. -/
theorem c10_last_company_cex :
    (App.submitResearch { stExample with lastCompanyName := "Old" }
      (FetchOutcome.httpError 500 "Server Error" "boom")).lastCompanyName = "Acme"
    ∧ ("Acme" : String) ≠ "Old" := by
  constructor
  · rfl
  · decide

/-- C10 (amended): on a validation failure only the error banner changes;
on an HTTP or network failure the summaries, debrief, form fields, view
and id counter are all unchanged and the busy flag ends cleared — but
`lastCompanyName` is overwritten with the submitted company name. -/
theorem c10_failure_atomicity (st : App.AppState) (msg : String) (status : Nat)
    (stext bodyText : String) :
    (App.validForm st = false →
      ∀ oc, App.submitResearch st oc =
        { st with error := "Company name and website are required" })
    ∧ (App.validForm st = true →
      ∀ oc, (oc = FetchOutcome.networkError msg ∨
          oc = FetchOutcome.httpError status stext bodyText) →
        (App.submitResearch st oc).summaries = st.summaries
        ∧ (App.submitResearch st oc).debrief = st.debrief
        ∧ (App.submitResearch st oc).companyName = st.companyName
        ∧ (App.submitResearch st oc).companyWebsite = st.companyWebsite
        ∧ (App.submitResearch st oc).activeTab = st.activeTab
        ∧ (App.submitResearch st oc).uid = st.uid
        ∧ (App.submitResearch st oc).isLoading = false
        ∧ (App.submitResearch st oc).lastCompanyName = st.companyName) := by
  constructor
  · intro h oc
    exact submit_invalid st oc h
  · intro h oc hoc
    rcases hoc with rfl | rfl
    · rw [submit_networkError st msg h]
      exact ⟨rfl, rfl, rfl, rfl, rfl, rfl, rfl, rfl⟩
    · rw [submit_httpError st status stext bodyText h]
      exact ⟨rfl, rfl, rfl, rfl, rfl, rfl, rfl, rfl⟩

theorem c10_failure_atomicity_witness :
    (App.submitResearch stExample
      (FetchOutcome.httpError 500 "Server Error" "boom")).summaries =
      stExample.summaries :=
  ((c10_failure_atomicity stExample "m" 500 "Server Error" "boom").2 (by decide)
    (FetchOutcome.httpError 500 "Server Error" "boom") (Or.inr rfl)).1
